import Mathlib

/-!
Verification of the virtual-memory control layer (`core/virtual_memory.cpp`).

The layer has two platform branches (`_WIN64` and POSIX).  Both are embedded:
namespace `Win` holds the Windows branch and namespace `Posix` the POSIX one.
Native OS calls (`VirtualAlloc`, `mmap`, `VirtualProtect`, `mprotect`, …) are
modelled by recording the argument record the code builds for them and by
taking the native return value as an explicit parameter; a fatal assertion
(`ASSERT`) is modelled as `Option.none` (execution halts, nothing is
returned).  Machine integers are `Nat` with explicit `% 2 ^ 64` where the
source relies on 64-bit wrap-around.
-/

namespace VirtualMemory

/-- Modelled from the spec: the abstract `MemoryMode` enum is declared in
`core/virtual_memory.h`, which is not among the sources.  The spec (§3) lists
the vocabulary `NoAccess, Read, Write, ReadWrite, Execute, ExecuteRead,
ExecuteWrite, ExecuteReadWrite` and calls `NoAccess` the safe default, so
`NoAccess` is the zero-valued first enumerator (the value produced by
`MemoryMode old_mode{}` value-initialization in `memory_patch`). -/
inductive MemoryMode where
  | NoAccess
  | Read
  | Write
  | ReadWrite
  | Execute
  | ExecuteRead
  | ExecuteWrite
  | ExecuteReadWrite
  deriving DecidableEq, Repr

/-- Modelled from the spec: `containsExecuteMode` is declared in
`core/virtual_memory.h`, not among the sources.  Per the spec (§4.5 step 4),
it holds exactly when the mode "included execute permission". -/
def containsExecuteMode : MemoryMode → Bool
  | MemoryMode.Execute => true
  | MemoryMode.ExecuteRead => true
  | MemoryMode.ExecuteWrite => true
  | MemoryMode.ExecuteReadWrite => true
  | _ => false

namespace Posix

/-- `PROT_READ` from `<sys/mman.h>` (POSIX standard value). -/
def PROT_READ : Nat := 1

/-- `PROT_WRITE` from `<sys/mman.h>` (POSIX standard value). -/
def PROT_WRITE : Nat := 2

/-- `PROT_EXEC` from `<sys/mman.h>` (POSIX standard value). -/
def PROT_EXEC : Nat := 4

/-- `PAGE_NOACCESS = 0` from the `PosixPageProtection` enum in the source. -/
def PAGE_NOACCESS : Nat := 0

/-- `PAGE_READONLY = PROT_READ` from the `PosixPageProtection` enum. -/
def PAGE_READONLY : Nat := PROT_READ

/-- `PAGE_READWRITE = PROT_READ | PROT_WRITE` from the source enum. -/
def PAGE_READWRITE : Nat := PROT_READ ||| PROT_WRITE

/-- `PAGE_EXECUTE = PROT_EXEC` from the source enum. -/
def PAGE_EXECUTE : Nat := PROT_EXEC

/-- `PAGE_EXECUTE_READ = PROT_EXEC | PROT_READ` from the source enum. -/
def PAGE_EXECUTE_READ : Nat := PROT_EXEC ||| PROT_READ

/-- `PAGE_EXECUTE_READWRITE = PROT_EXEC | PROT_READ | PROT_WRITE`. -/
def PAGE_EXECUTE_READWRITE : Nat := PROT_EXEC ||| PROT_READ ||| PROT_WRITE

/-- `static u32 convertMemoryMode(MemoryMode mode)`, POSIX branch:
the switch in the source, including the `default: return PAGE_NOACCESS`. -/
def convertMemoryMode : MemoryMode → Nat
  | MemoryMode.Read => PAGE_READONLY
  | MemoryMode.Write => PAGE_READWRITE
  | MemoryMode.ReadWrite => PAGE_READWRITE
  | MemoryMode.Execute => PAGE_EXECUTE
  | MemoryMode.ExecuteRead => PAGE_EXECUTE_READ
  | MemoryMode.ExecuteWrite => PAGE_EXECUTE_READWRITE
  | MemoryMode.ExecuteReadWrite => PAGE_EXECUTE_READWRITE
  | MemoryMode.NoAccess => PAGE_NOACCESS

/-- `static MemoryMode convertMemoryMode(u32 mode)`, POSIX branch: the
switch on the native value, `default` giving `MemoryMode::NoAccess`. -/
def convertMemoryModeBack (mode : Nat) : MemoryMode :=
  if mode = PAGE_NOACCESS then MemoryMode.NoAccess
  else if mode = PAGE_READONLY then MemoryMode.Read
  else if mode = PAGE_READWRITE then MemoryMode.ReadWrite
  else if mode = PAGE_EXECUTE then MemoryMode.Execute
  else if mode = PAGE_EXECUTE_READ then MemoryMode.ExecuteRead
  else if mode = PAGE_EXECUTE_READWRITE then MemoryMode.ExecuteReadWrite
  else MemoryMode.NoAccess

end Posix

namespace Win

/-- `PAGE_NOACCESS` from `<windows.h>`. -/
def PAGE_NOACCESS : Nat := 0x01

/-- `PAGE_READONLY` from `<windows.h>`. -/
def PAGE_READONLY : Nat := 0x02

/-- `PAGE_READWRITE` from `<windows.h>`. -/
def PAGE_READWRITE : Nat := 0x04

/-- `PAGE_EXECUTE` from `<windows.h>`. -/
def PAGE_EXECUTE : Nat := 0x10

/-- `PAGE_EXECUTE_READ` from `<windows.h>`. -/
def PAGE_EXECUTE_READ : Nat := 0x20

/-- `PAGE_EXECUTE_READWRITE` from `<windows.h>`. -/
def PAGE_EXECUTE_READWRITE : Nat := 0x40

/-- `static u32 convertMemoryMode(MemoryMode mode)`, Windows branch. -/
def convertMemoryMode : MemoryMode → Nat
  | MemoryMode.Read => PAGE_READONLY
  | MemoryMode.Write => PAGE_READWRITE
  | MemoryMode.ReadWrite => PAGE_READWRITE
  | MemoryMode.Execute => PAGE_EXECUTE
  | MemoryMode.ExecuteRead => PAGE_EXECUTE_READ
  | MemoryMode.ExecuteWrite => PAGE_EXECUTE_READWRITE
  | MemoryMode.ExecuteReadWrite => PAGE_EXECUTE_READWRITE
  | MemoryMode.NoAccess => PAGE_NOACCESS

/-- `static MemoryMode convertMemoryMode(u32 mode)`, Windows branch. -/
def convertMemoryModeBack (mode : Nat) : MemoryMode :=
  if mode = PAGE_NOACCESS then MemoryMode.NoAccess
  else if mode = PAGE_READONLY then MemoryMode.Read
  else if mode = PAGE_READWRITE then MemoryMode.ReadWrite
  else if mode = PAGE_EXECUTE then MemoryMode.Execute
  else if mode = PAGE_EXECUTE_READ then MemoryMode.ExecuteRead
  else if mode = PAGE_EXECUTE_READWRITE then MemoryMode.ExecuteReadWrite
  else MemoryMode.NoAccess

end Win

/-- The representative of a mode's equivalence class under the codec's
collapses (`Write ≡ ReadWrite`, `ExecuteWrite ≡ ExecuteReadWrite`, all other
modes alone in their class).  Stated from the spec's equivalence classes. -/
def canonicalMode : MemoryMode → MemoryMode
  | MemoryMode.Write => MemoryMode.ReadWrite
  | MemoryMode.ExecuteWrite => MemoryMode.ExecuteReadWrite
  | m => m

/-- `static u64 AlignUp(u64 pos, u64 align)`:
`(align != 0 ? (pos + (align - 1)) & ~(align - 1) : pos)`, on 64-bit
unsigned arithmetic.  The addition wraps modulo `2 ^ 64`; the complement of
the 64-bit value `align - 1` is `(2 ^ 64 - 1) - (align - 1)`. -/
def AlignUp (pos align : Nat) : Nat :=
  if align ≠ 0 then ((pos + (align - 1)) % 2 ^ 64) &&& ((2 ^ 64 - 1) - (align - 1))
  else pos

namespace Win

/-- `MEM_COMMIT` from `<windows.h>`. -/
def MEM_COMMIT : Nat := 0x1000

/-- `MEM_RESERVE` from `<windows.h>`. -/
def MEM_RESERVE : Nat := 0x2000

/-- The argument record `memory_alloc` passes to `VirtualAlloc` on the
`_WIN64` branch. -/
structure VirtualAllocCall where
  lpAddress : Nat
  dwSize : Nat
  flAllocationType : Nat
  flProtect : Nat
  deriving DecidableEq, Repr

/-- `u64 memory_alloc(u64 address, u64 size, MemoryMode mode)` on `_WIN64`:
the call it issues is
`VirtualAlloc(address, size, MEM_COMMIT | MEM_RESERVE, convertMemoryMode(mode))`. -/
def memory_alloc_call (address size : Nat) (mode : MemoryMode) : VirtualAllocCall :=
  { lpAddress := address
    dwSize := size
    flAllocationType := MEM_COMMIT ||| MEM_RESERVE
    flProtect := convertMemoryMode mode }

/-- `bool memory_protect(u64 address, u64 size, MemoryMode mode, MemoryMode* old_mode)`
on `_WIN64`.  `native_ok` is whether `VirtualProtect` succeeded and
`old_protect` the previous native protection it reported; `old_mode` is the
value behind the caller's pointer (`none` = null pointer).  The result is
the returned boolean and the value behind the pointer after the call. -/
def memory_protect (address size : Nat) (mode : MemoryMode)
    (old_mode : Option MemoryMode) (native_ok : Bool) (old_protect : Nat) :
    Bool × Option MemoryMode :=
  if native_ok = false then (false, old_mode)
  else
    match old_mode with
    | some _ => (true, some (convertMemoryModeBack old_protect))
    | none => (true, none)

/-- The `MEM_ADDRESS_REQUIREMENTS` record `memory_alloc_aligned` fills in
on the `_WIN64` branch before calling `VirtualAlloc2`. -/
structure MEM_ADDRESS_REQUIREMENTS where
  LowestStartingAddress : Nat
  HighestEndingAddress : Nat
  Alignment : Nat
  deriving DecidableEq, Repr

/-- How `memory_alloc_aligned` fills the `MEM_ADDRESS_REQUIREMENTS` record:
`LowestStartingAddress = (address == 0 ? USER_MIN : AlignUp(address, alignment))`,
`HighestEndingAddress = USER_MAX`, `Alignment = alignment`.  `USER_MIN` and
`USER_MAX` are external platform constants, taken as parameters. -/
def alloc_aligned_requirements (USER_MIN USER_MAX address alignment : Nat) :
    MEM_ADDRESS_REQUIREMENTS :=
  { LowestStartingAddress := if address = 0 then USER_MIN else AlignUp address alignment
    HighestEndingAddress := USER_MAX
    Alignment := alignment }

/-- Result handling of `memory_alloc_aligned` on `_WIN64`: with `native_ret`
the pointer `VirtualAlloc2` returned, the function logs the native error
code exactly when `native_ret == 0` and returns `native_ret` unchanged
(first component: returned address; second: whether the error was logged).
It never throws or aborts. -/
def memory_alloc_aligned_result (native_ret : Nat) : Nat × Bool :=
  (native_ret, decide (native_ret = 0))

end Win

namespace Posix

/-- `MAP_PRIVATE` from `<sys/mman.h>` (Linux value). -/
def MAP_PRIVATE : Nat := 0x02

/-- `MAP_ANONYMOUS` from `<sys/mman.h>` (Linux value). -/
def MAP_ANONYMOUS : Nat := 0x20

/-- The argument record `memory_alloc` passes to `mmap` on the POSIX
branch. -/
structure MmapCall where
  addr : Nat
  len : Nat
  prot : Nat
  flags : Nat
  deriving DecidableEq, Repr

/-- `u64 memory_alloc(u64 address, u64 size, MemoryMode mode)` on POSIX:
the call it issues is
`mmap(address, size, PROT_EXEC | PROT_READ | PROT_WRITE, MAP_ANONYMOUS | MAP_PRIVATE, -1, 0)`.
Note the protection is the fixed value `PROT_EXEC | PROT_READ | PROT_WRITE`;
the `mode` argument is not consulted on this branch. -/
def memory_alloc_call (address size : Nat) (mode : MemoryMode) : MmapCall :=
  { addr := address
    len := size
    prot := PROT_EXEC ||| PROT_READ ||| PROT_WRITE
    flags := MAP_ANONYMOUS ||| MAP_PRIVATE }

/-- `bool memory_protect(...)` on POSIX.  `mprotect_ret` is the value
returned by `mprotect(address, size, convertMemoryMode(mode))`, and
`native_old_protect` is the native protection the range had before the call
(part of the OS state; `mprotect` does not report it and the function never
reads it).  A non-zero `mprotect_ret` runs `ASSERT(false)`, which halts:
modelled as `none`.  Otherwise the function returns `true` and the value
behind `old_mode` is left untouched. -/
def memory_protect (address size : Nat) (mode : MemoryMode)
    (old_mode : Option MemoryMode) (mprotect_ret : Int) (native_old_protect : Nat) :
    Option (Bool × Option MemoryMode) :=
  if mprotect_ret ≠ 0 then none
  else some (true, old_mode)

/-- The hint pointer `memory_alloc_aligned` passes to `mmap` on POSIX:
`address == 0 ? USER_MIN : AlignUp(address, alignment)`. -/
def alloc_aligned_hint (USER_MIN address alignment : Nat) : Nat :=
  if address = 0 then USER_MIN else AlignUp address alignment

/-- Result handling of `memory_alloc_aligned` on POSIX: `native_ret` is the
`mmap` result, `none` standing for `MAP_FAILED`.  The code runs
`ASSERT(ptr != MAP_FAILED)`, so a failed allocation halts execution
(modelled as `none`); nothing is logged and no sentinel is returned. -/
def memory_alloc_aligned_result (native_ret : Option Nat) : Option Nat :=
  match native_ret with
  | some ptr => some ptr
  | none => none

end Posix

/-- A byte of a 64-bit value: `byteOf v i` is the i-th little-endian byte
of `v`. -/
def byteOf (v i : Nat) : Nat := v / 256 ^ i % 256

/-- Little-endian read of the 8-byte word at `addr` from a byte-addressed
memory, as the x86-64 load `*reinterpret_cast<uint64_t*>(vaddr)` does. -/
def read64 (mem : Nat → Nat) (addr : Nat) : Nat :=
  mem (addr + 0) + mem (addr + 1) * 256 + mem (addr + 2) * 256 ^ 2 +
    mem (addr + 3) * 256 ^ 3 + mem (addr + 4) * 256 ^ 4 +
    mem (addr + 5) * 256 ^ 5 + mem (addr + 6) * 256 ^ 6 +
    mem (addr + 7) * 256 ^ 7

/-- Little-endian store of the 8-byte value `v` at `addr`: bytes inside
`[addr, addr + 8)` become the bytes of `v`, all other bytes are kept. -/
def write64 (mem : Nat → Nat) (addr v : Nat) : Nat → Nat :=
  fun a => if addr ≤ a ∧ a < addr + 8 then byteOf v (a - addr) else mem a

/-- The process state `memory_patch` acts on: the byte-addressed memory and
the native protection of each address (the latter only read or changed
through `memory_protect`, which `memory_patch` no longer calls). -/
structure PatchState where
  mem : Nat → Nat
  prot : Nat → MemoryMode

/-- Outcome of `memory_patch`: the returned boolean, the state after the
call, and whether `memory_flush` was invoked on the 8 written bytes. -/
structure PatchResult where
  ret : Bool
  state : PatchState
  flushed : Bool

/-- `bool memory_patch(u64 vaddr, u64 value)`:
`MemoryMode old_mode{}` zero-initializes the local to `NoAccess`; the
`memory_protect(vaddr, 8, MemoryMode::ReadWrite, &old_mode)` call that
would fill it, and the restoring `memory_protect(vaddr, 8, old_mode,
nullptr)`, are commented out in the source.  The function compares the old
word with `value`, stores `value`, and calls `memory_flush(vaddr, 8)` only
when `containsExecuteMode(old_mode)` holds. -/
def memory_patch (st : PatchState) (vaddr value : Nat) : PatchResult :=
  let old_mode : MemoryMode := MemoryMode.NoAccess
  let ret : Bool := read64 st.mem vaddr != value
  { ret := ret
    state := { st with mem := write64 st.mem vaddr value }
    flushed := containsExecuteMode old_mode }

/-- C1: for every `MemoryMode` m, decoding the encoding of m yields the
representative of m's equivalence class, on both platforms: `Write` and
`ReadWrite` both come back as `ReadWrite`, `ExecuteWrite` and
`ExecuteReadWrite` both come back as `ExecuteReadWrite`, and every other
mode round-trips to itself. -/
theorem decode_encode_same_class (m : MemoryMode) :
    Win.convertMemoryModeBack (Win.convertMemoryMode m) = canonicalMode m ∧
    Posix.convertMemoryModeBack (Posix.convertMemoryMode m) = canonicalMode m := by
  cases m <;> exact ⟨rfl, rfl⟩

/-- C2 counterexample: on the POSIX branch, `memory_alloc(0, 4096, Read)`
passes protection `PROT_EXEC | PROT_READ | PROT_WRITE = 7` to `mmap`, not
the encoding `convertMemoryMode(Read) = PROT_READ = 1` of the requested
mode, so the claim fails on that platform. -/
theorem posix_alloc_prot_ne_encoded_mode :
    (Posix.memory_alloc_call 0 4096 MemoryMode.Read).prot ≠
      Posix.convertMemoryMode MemoryMode.Read := by
  decide

/-- C2 amended: on Windows, `memory_alloc` requests protection
`convertMemoryMode(mode)` for the new region; on POSIX it always requests
`PROT_EXEC | PROT_READ | PROT_WRITE`, regardless of `mode`. -/
theorem alloc_protection_per_platform (address size : Nat) (mode : MemoryMode) :
    (Win.memory_alloc_call address size mode).flProtect = Win.convertMemoryMode mode ∧
    (Posix.memory_alloc_call address size mode).prot =
      (Posix.PROT_EXEC ||| Posix.PROT_READ ||| Posix.PROT_WRITE) :=
  ⟨rfl, rfl⟩

/-- C5 counterexample: on POSIX, with the range's previous native
protection `PAGE_READONLY` (which decodes to `Read`), a successful
`memory_protect` leaves a non-null `out_old_mode` holding whatever it held
before (here `ExecuteRead`) instead of writing `decode(PAGE_READONLY)`. -/
theorem posix_protect_old_mode_not_written :
    Posix.memory_protect 4096 8 MemoryMode.ReadWrite (some MemoryMode.ExecuteRead)
        0 Posix.PAGE_READONLY ≠
      some (true, some (Posix.convertMemoryModeBack Posix.PAGE_READONLY)) := by
  decide

/-- C5 amended: on Windows, a successful `memory_protect` with a non-null
`out_old_mode` stores `decode(previous native protection)` through it; on
POSIX, `memory_protect` never writes through `out_old_mode` — on success it
is returned exactly as it was. -/
theorem protect_old_mode_per_platform (address size : Nat) (mode : MemoryMode)
    (prev : MemoryMode) (old_protect : Nat) (ret : Int) (hret : ret = 0) :
    (Win.memory_protect address size mode (some prev) true old_protect).2 =
      some (Win.convertMemoryModeBack old_protect) ∧
    Posix.memory_protect address size mode (some prev) ret old_protect =
      some (true, some prev) := by
  subst hret
  exact ⟨rfl, rfl⟩

/-- C5 amended, witness at a concrete input. -/
theorem protect_old_mode_per_platform_witness :
    (Win.memory_protect 0 8 MemoryMode.ReadWrite (some MemoryMode.NoAccess) true 2).2 =
      some (Win.convertMemoryModeBack 2) ∧
    Posix.memory_protect 0 8 MemoryMode.ReadWrite (some MemoryMode.NoAccess) 0 2 =
      some (true, some MemoryMode.NoAccess) :=
  protect_old_mode_per_platform 0 8 MemoryMode.ReadWrite MemoryMode.NoAccess 2 0 rfl

/-- C6 counterexample: on POSIX, when `mmap` fails (`MAP_FAILED`),
`memory_alloc_aligned` does not return a failure sentinel: the
`ASSERT(ptr != MAP_FAILED)` halts execution (modelled as `none`). -/
theorem posix_alloc_aligned_failure_halts :
    Posix.memory_alloc_aligned_result none = none :=
  rfl

/-- C6 amended: on Windows, when `VirtualAlloc2` fails,
`memory_alloc_aligned` returns the sentinel `0` and logs the native error
code without throwing or aborting (and on success returns the address
without logging); on POSIX a native allocation failure triggers a fatal
assertion instead of returning a sentinel. -/
theorem alloc_aligned_failure_per_platform :
    Win.memory_alloc_aligned_result 0 = (0, true) ∧
    (∀ r : Nat, r ≠ 0 → Win.memory_alloc_aligned_result r = (r, false)) ∧
    Posix.memory_alloc_aligned_result none = none ∧
    (∀ p : Nat, Posix.memory_alloc_aligned_result (some p) = some p) := by
  refine ⟨rfl, ?_, rfl, fun p => rfl⟩
  intro r hr
  simp [Win.memory_alloc_aligned_result, hr]

/-- C6 amended, witness at a concrete input. -/
theorem alloc_aligned_failure_per_platform_witness :
    Win.memory_alloc_aligned_result 5 = (5, false) :=
  alloc_aligned_failure_per_platform.2.1 5 (by decide)

/-- C7: in `memory_alloc_aligned`, the lower search bound handed to the
native allocator (`LowestStartingAddress` of the `MEM_ADDRESS_REQUIREMENTS`
on Windows, the `mmap` hint on POSIX) is `USER_MIN` when `address` is zero
and `AlignUp(address, alignment)` when it is non-zero. -/
theorem alloc_aligned_lower_bound (USER_MIN USER_MAX address alignment : Nat) :
    (address = 0 →
      (Win.alloc_aligned_requirements USER_MIN USER_MAX address
          alignment).LowestStartingAddress = USER_MIN ∧
      Posix.alloc_aligned_hint USER_MIN address alignment = USER_MIN) ∧
    (address ≠ 0 →
      (Win.alloc_aligned_requirements USER_MIN USER_MAX address
          alignment).LowestStartingAddress = AlignUp address alignment ∧
      Posix.alloc_aligned_hint USER_MIN address alignment =
        AlignUp address alignment) := by
  constructor <;> intro h <;>
    simp [Win.alloc_aligned_requirements, Posix.alloc_aligned_hint, h]

/-- C7, witness at concrete inputs for both the zero and the non-zero
hint. -/
theorem alloc_aligned_lower_bound_witness :
    ((Win.alloc_aligned_requirements 4096 1000000 0 65536).LowestStartingAddress = 4096 ∧
      Posix.alloc_aligned_hint 4096 0 65536 = 4096) ∧
    ((Win.alloc_aligned_requirements 4096 1000000 70000 65536).LowestStartingAddress =
        AlignUp 70000 65536 ∧
      Posix.alloc_aligned_hint 4096 70000 65536 = AlignUp 70000 65536) :=
  ⟨(alloc_aligned_lower_bound 4096 1000000 0 65536).1 rfl,
   (alloc_aligned_lower_bound 4096 1000000 70000 65536).2 (by decide)⟩

/-- C8: `memory_protect` reports a native protection-change failure as the
boolean `false` on Windows; on POSIX such a failure halts execution via
`ASSERT` (modelled as `none`), so whenever the POSIX `memory_protect`
returns at all, it returns `true`. -/
theorem memory_protect_failure_policy (address size : Nat) (mode : MemoryMode)
    (old_mode : Option MemoryMode) (old_protect : Nat) (ret : Int) (prev : Nat) :
    (Win.memory_protect address size mode old_mode false old_protect).1 = false ∧
    (ret ≠ 0 → Posix.memory_protect address size mode old_mode ret prev = none) ∧
    (∀ b o, Posix.memory_protect address size mode old_mode ret prev = some (b, o) →
      b = true) := by
  refine ⟨rfl, ?_, ?_⟩
  · intro hret
    simp [Posix.memory_protect, hret]
  · intro b o h
    by_cases hret : ret = 0
    · simp [Posix.memory_protect, hret] at h
      exact h.1
    · simp [Posix.memory_protect, hret] at h

/-- C8, witness at concrete inputs: a failed Windows call returns `false`,
a failed POSIX call halts, a successful POSIX call returns `true`. -/
theorem memory_protect_failure_policy_witness :
    (Win.memory_protect 0 8 MemoryMode.Read none false 0).1 = false ∧
    Posix.memory_protect 0 8 MemoryMode.Read none 1 0 = none ∧
    true = true :=
  ⟨(memory_protect_failure_policy 0 8 MemoryMode.Read none 0 1 0).1,
   (memory_protect_failure_policy 0 8 MemoryMode.Read none 0 1 0).2.1 (by decide),
   (memory_protect_failure_policy 0 8 MemoryMode.Read none 0 0 0).2.2 true none rfl⟩

/-- Bytes written by `write64` inside the target range are the bytes of the
stored value. -/
theorem write64_get (mem : Nat → Nat) (addr v i : Nat) (hi : i < 8) :
    write64 mem addr v (addr + i) = byteOf v i := by
  simp only [write64]
  rw [if_pos ⟨Nat.le_add_right _ _, by omega⟩, Nat.add_sub_cancel_left]

/-- Little-endian reconstruction: the eight bytes of a value below `2 ^ 64`
reassemble to the value. -/
theorem byteOf_sum (v : Nat) (hv : v < 2 ^ 64) :
    byteOf v 0 + byteOf v 1 * 256 + byteOf v 2 * 256 ^ 2 + byteOf v 3 * 256 ^ 3 +
      byteOf v 4 * 256 ^ 4 + byteOf v 5 * 256 ^ 5 + byteOf v 6 * 256 ^ 6 +
      byteOf v 7 * 256 ^ 7 = v := by
  simp only [byteOf]
  norm_num
  omega

/-- Reading back the word just stored returns the stored value. -/
theorem read64_write64 (mem : Nat → Nat) (addr v : Nat) (hv : v < 2 ^ 64) :
    read64 (write64 mem addr v) addr = v := by
  simp only [read64, write64_get mem addr v 0 (by omega), write64_get mem addr v 1 (by omega),
    write64_get mem addr v 2 (by omega), write64_get mem addr v 3 (by omega),
    write64_get mem addr v 4 (by omega), write64_get mem addr v 5 (by omega),
    write64_get mem addr v 6 (by omega), write64_get mem addr v 7 (by omega)]
  exact byteOf_sum v hv

/-- Base-256 digits are unique: extracting a byte from an 8-byte
little-endian combination returns the corresponding byte. -/
theorem digits_unique (b0 b1 b2 b3 b4 b5 b6 b7 : Nat)
    (h0 : b0 < 256) (h1 : b1 < 256) (h2 : b2 < 256) (h3 : b3 < 256)
    (h4 : b4 < 256) (h5 : b5 < 256) (h6 : b6 < 256) (h7 : b7 < 256) :
    byteOf (b0 + b1 * 256 + b2 * 256 ^ 2 + b3 * 256 ^ 3 + b4 * 256 ^ 4 +
        b5 * 256 ^ 5 + b6 * 256 ^ 6 + b7 * 256 ^ 7) 0 = b0 ∧
    byteOf (b0 + b1 * 256 + b2 * 256 ^ 2 + b3 * 256 ^ 3 + b4 * 256 ^ 4 +
        b5 * 256 ^ 5 + b6 * 256 ^ 6 + b7 * 256 ^ 7) 1 = b1 ∧
    byteOf (b0 + b1 * 256 + b2 * 256 ^ 2 + b3 * 256 ^ 3 + b4 * 256 ^ 4 +
        b5 * 256 ^ 5 + b6 * 256 ^ 6 + b7 * 256 ^ 7) 2 = b2 ∧
    byteOf (b0 + b1 * 256 + b2 * 256 ^ 2 + b3 * 256 ^ 3 + b4 * 256 ^ 4 +
        b5 * 256 ^ 5 + b6 * 256 ^ 6 + b7 * 256 ^ 7) 3 = b3 ∧
    byteOf (b0 + b1 * 256 + b2 * 256 ^ 2 + b3 * 256 ^ 3 + b4 * 256 ^ 4 +
        b5 * 256 ^ 5 + b6 * 256 ^ 6 + b7 * 256 ^ 7) 4 = b4 ∧
    byteOf (b0 + b1 * 256 + b2 * 256 ^ 2 + b3 * 256 ^ 3 + b4 * 256 ^ 4 +
        b5 * 256 ^ 5 + b6 * 256 ^ 6 + b7 * 256 ^ 7) 5 = b5 ∧
    byteOf (b0 + b1 * 256 + b2 * 256 ^ 2 + b3 * 256 ^ 3 + b4 * 256 ^ 4 +
        b5 * 256 ^ 5 + b6 * 256 ^ 6 + b7 * 256 ^ 7) 6 = b6 ∧
    byteOf (b0 + b1 * 256 + b2 * 256 ^ 2 + b3 * 256 ^ 3 + b4 * 256 ^ 4 +
        b5 * 256 ^ 5 + b6 * 256 ^ 6 + b7 * 256 ^ 7) 7 = b7 := by
  simp only [byteOf]
  norm_num
  omega

/-- Storing back the word a memory already holds leaves every byte
unchanged. -/
theorem write64_read64_self (mem : Nat → Nat) (addr : Nat) (h : ∀ a, mem a < 256) :
    ∀ a, write64 mem addr (read64 mem addr) a = mem a := by
  intro a
  by_cases hin : addr ≤ a ∧ a < addr + 8
  · obtain ⟨D0, D1, D2, D3, D4, D5, D6, D7⟩ :=
      digits_unique (mem (addr + 0)) (mem (addr + 1)) (mem (addr + 2)) (mem (addr + 3))
        (mem (addr + 4)) (mem (addr + 5)) (mem (addr + 6)) (mem (addr + 7))
        (h _) (h _) (h _) (h _) (h _) (h _) (h _) (h _)
    simp only [write64, if_pos hin]
    rcases (by omega : a - addr = 0 ∨ a - addr = 1 ∨ a - addr = 2 ∨ a - addr = 3 ∨
        a - addr = 4 ∨ a - addr = 5 ∨ a - addr = 6 ∨ a - addr = 7) with
      hoff | hoff | hoff | hoff | hoff | hoff | hoff | hoff
    · rw [hoff, show a = addr + 0 from by omega]
      exact D0
    · rw [hoff, show a = addr + 1 from by omega]
      exact D1
    · rw [hoff, show a = addr + 2 from by omega]
      exact D2
    · rw [hoff, show a = addr + 3 from by omega]
      exact D3
    · rw [hoff, show a = addr + 4 from by omega]
      exact D4
    · rw [hoff, show a = addr + 5 from by omega]
      exact D5
    · rw [hoff, show a = addr + 6 from by omega]
      exact D6
    · rw [hoff, show a = addr + 7 from by omega]
      exact D7
  · simp only [write64, if_neg hin]

/-- C3: `memory_patch(vaddr, value)` returns `true` exactly when the 8-byte
word previously at `vaddr` differs from `value`; afterwards the word at
`vaddr` is exactly `value`; and when the old word already equals `value`
the call returns `false` and every byte of memory is unchanged. -/
theorem memory_patch_correct (st : PatchState) (vaddr value : Nat)
    (hmem : ∀ a, st.mem a < 256) (hv : value < 2 ^ 64) :
    ((memory_patch st vaddr value).ret = true ↔ read64 st.mem vaddr ≠ value) ∧
    read64 (memory_patch st vaddr value).state.mem vaddr = value ∧
    (read64 st.mem vaddr = value →
      (memory_patch st vaddr value).ret = false ∧
      ∀ a, (memory_patch st vaddr value).state.mem a = st.mem a) := by
  refine ⟨?_, ?_, ?_⟩
  · simp [memory_patch, bne_iff_ne]
  · show read64 (write64 st.mem vaddr value) vaddr = value
    exact read64_write64 st.mem vaddr value hv
  · intro heq
    constructor
    · simp [memory_patch, heq]
    · intro a
      show write64 st.mem vaddr value a = st.mem a
      rw [← heq]
      exact write64_read64_self st.mem vaddr hmem a

/-- C3, witness: in an all-zero memory, patching `5` at address `16`
makes the word at `16` read back as `5`. -/
theorem memory_patch_correct_witness :
    read64 (memory_patch ⟨fun _ => 0, fun _ => MemoryMode.NoAccess⟩ 16 5).state.mem 16 = 5 :=
  (memory_patch_correct ⟨fun _ => 0, fun _ => MemoryMode.NoAccess⟩ 16 5
    (fun _ => Nat.zero_lt_succ 255) (by norm_num)).2.1

/-- C4: `memory_patch` never invokes `memory_flush`, whatever the actual
protection of the target range: the local `old_mode` is zero-initialized to
`NoAccess` and the `memory_protect` call that would fill it with the real
prior mode is commented out, so `containsExecuteMode(old_mode)` is always
`false` and the flush branch is dead code. -/
theorem memory_patch_never_flushes (st : PatchState) (vaddr value : Nat) :
    (memory_patch st vaddr value).flushed = false :=
  rfl

/-- Masking a 64-bit value with `2 ^ n - 2 ^ k` clears its `k` low bits. -/
theorem and_mask_eq (x k n : Nat) (hk : k ≤ n) (hx : x < 2 ^ n) :
    x &&& (2 ^ n - 2 ^ k) = 2 ^ k * (x / 2 ^ k) := by
  have hmask : (2:Nat) ^ n - 2 ^ k = (2 ^ (n - k) - 1) <<< k := by
    rw [Nat.shiftLeft_eq, Nat.sub_mul, one_mul, ← pow_add, Nat.sub_add_cancel hk]
  have hrhs : 2 ^ k * (x / 2 ^ k) = (x >>> k) <<< k := by
    rw [Nat.shiftRight_eq_div_pow, Nat.shiftLeft_eq, mul_comm]
  rw [hmask, hrhs]
  apply Nat.eq_of_testBit_eq
  intro i
  rw [Nat.testBit_and, Nat.testBit_shiftLeft, Nat.testBit_shiftLeft,
    Nat.testBit_shiftRight, Nat.testBit_two_pow_sub_one]
  by_cases hki : k ≤ i
  · have hik : k + (i - k) = i := by omega
    rw [hik]
    by_cases hin : i < n
    · have h1 : i - k < n - k := by omega
      simp [hki, h1]
    · have h1 : ¬ (i - k < n - k) := by omega
      have h2 : x.testBit i = false :=
        Nat.testBit_lt_two_pow
          (lt_of_lt_of_le hx (Nat.pow_le_pow_right (by norm_num) (by omega)))
      simp [hki, h1, h2]
  · simp [hki]

/-- Rounding down a value to a multiple of `2 ^ k` commutes with dropping a
`2 ^ n`-multiple and reducing modulo `2 ^ n`, for `k ≤ n`. -/
theorem mul_div_mod_pow (r t k n : Nat) (hk : k ≤ n) (hr : r < 2 ^ n) :
    2 ^ k * ((r + 2 ^ n * t) / 2 ^ k) % 2 ^ n = 2 ^ k * (r / 2 ^ k) := by
  have hkpos : (0:Nat) < 2 ^ k := pow_pos (by norm_num) k
  have hpow : (2:Nat) ^ (n - k) * 2 ^ k = 2 ^ n := by
    rw [← pow_add]
    congr 1
    omega
  have h1 : 2 ^ n * t = t * 2 ^ (n - k) * 2 ^ k := by
    calc 2 ^ n * t = t * 2 ^ n := mul_comm _ _
      _ = t * (2 ^ (n - k) * 2 ^ k) := by rw [hpow]
      _ = t * 2 ^ (n - k) * 2 ^ k := (mul_assoc _ _ _).symm
  have hdiv : (r + 2 ^ n * t) / 2 ^ k = r / 2 ^ k + t * 2 ^ (n - k) := by
    rw [h1, Nat.add_mul_div_right _ _ hkpos]
  rw [hdiv, Nat.mul_add]
  have h2 : 2 ^ k * (t * 2 ^ (n - k)) = t * 2 ^ n := by
    calc 2 ^ k * (t * 2 ^ (n - k)) = t * (2 ^ (n - k) * 2 ^ k) := by ring
      _ = t * 2 ^ n := by rw [hpow]
  rw [h2, Nat.add_mul_mod_self_right]
  refine Nat.mod_eq_of_lt (lt_of_le_of_lt ?_ hr)
  calc 2 ^ k * (r / 2 ^ k) = r / 2 ^ k * 2 ^ k := mul_comm _ _
    _ ≤ r := Nat.div_mul_le_self r (2 ^ k)

/-- On a power-of-two alignment `2 ^ k` with `k ≤ 63`, the masking formula
of `AlignUp` computes the ceiling multiple modulo `2 ^ 64`. -/
theorem AlignUp_pow2 (pos k : Nat) (hk : k ≤ 63) :
    AlignUp pos (2 ^ k) = (2 ^ k * ((pos + 2 ^ k - 1) / 2 ^ k)) % 2 ^ 64 := by
  have hkpos : (0:Nat) < 2 ^ k := pow_pos (by norm_num) k
  have hk64 : (2:Nat) ^ k ≤ 2 ^ 64 := Nat.pow_le_pow_right (by norm_num) (by omega)
  have hxlt : (pos + (2 ^ k - 1)) % 2 ^ 64 < 2 ^ 64 := Nat.mod_lt _ (by norm_num)
  unfold AlignUp
  rw [if_pos hkpos.ne']
  have hmask : (2:Nat) ^ 64 - 1 - (2 ^ k - 1) = 2 ^ 64 - 2 ^ k := by omega
  rw [hmask, and_mask_eq _ k 64 (by omega) hxlt]
  have hps : pos + (2 ^ k - 1) = pos + 2 ^ k - 1 := by omega
  rw [hps]
  have hsd : pos + 2 ^ k - 1 =
      (pos + 2 ^ k - 1) % 2 ^ 64 + 2 ^ 64 * ((pos + 2 ^ k - 1) / 2 ^ 64) :=
    (Nat.mod_add_div _ (2 ^ 64)).symm
  conv_rhs => rw [hsd]
  exact (mul_div_mod_pow _ _ k 64 (by omega) (Nat.mod_lt _ (by norm_num))).symm

/-- `a * ((pos + a - 1) / a)` is the least multiple of `a` at or above
`pos`, for `a > 0`. -/
theorem ceil_mul_least (pos a : Nat) (ha : 0 < a) :
    a ∣ a * ((pos + a - 1) / a) ∧ pos ≤ a * ((pos + a - 1) / a) ∧
      ∀ m : Nat, a ∣ m → pos ≤ m → a * ((pos + a - 1) / a) ≤ m := by
  refine ⟨⟨_, rfl⟩, ?_, ?_⟩
  · have hdm := Nat.div_add_mod (pos + a - 1) a
    have hmod : (pos + a - 1) % a < a := Nat.mod_lt _ ha
    generalize hq : (pos + a - 1) / a = q at hdm ⊢
    generalize hr : (pos + a - 1) % a = r at hdm hmod
    generalize hprod : a * q = t at hdm ⊢
    omega
  · intro m hdvd hle
    obtain ⟨c, rfl⟩ := hdvd
    have hcb : (pos + a - 1) / a ≤ c := by
      have hub : pos + a - 1 ≤ a * c + (a - 1) := by
        generalize a * c = t at hle ⊢
        omega
      calc (pos + a - 1) / a ≤ (a * c + (a - 1)) / a := Nat.div_le_div_right hub
        _ = c + (a - 1) / a := Nat.mul_add_div ha c (a - 1)
        _ = c := by rw [Nat.div_eq_of_lt (by omega), Nat.add_zero]
    exact mul_le_mul_left' hcb a

/-- C9: for `pos < 2 ^ 64` and a power-of-two alignment `2 ^ k` (`k ≤ 63`,
so that the alignment is a 64-bit value), `AlignUp pos (2 ^ k)` is the
least multiple of `2 ^ k` that is `≥ pos`, reduced modulo `2 ^ 64`; and
`AlignUp pos 0 = pos`. -/
theorem AlignUp_least_multiple (pos align : Nat) (hpos : pos < 2 ^ 64) :
    (∀ k : Nat, k ≤ 63 → align = 2 ^ k →
      AlignUp pos align = (align * ((pos + align - 1) / align)) % 2 ^ 64 ∧
      align ∣ align * ((pos + align - 1) / align) ∧
      pos ≤ align * ((pos + align - 1) / align) ∧
      ∀ m : Nat, align ∣ m → pos ≤ m → align * ((pos + align - 1) / align) ≤ m) ∧
    AlignUp pos 0 = pos := by
  refine ⟨?_, by simp [AlignUp]⟩
  rintro k hk rfl
  have hkpos : (0:Nat) < 2 ^ k := pow_pos (by norm_num) k
  obtain ⟨hdvd, hle, hleast⟩ := ceil_mul_least pos (2 ^ k) hkpos
  exact ⟨AlignUp_pow2 pos k hk, hdvd, hle, hleast⟩

/-- C9, witness: `AlignUp 5 4 = 8`, the least multiple of `4` above `5`,
and `AlignUp 5 0 = 5`. -/
theorem AlignUp_least_multiple_witness :
    AlignUp 5 4 = (4 * ((5 + 4 - 1) / 4)) % 2 ^ 64 ∧ AlignUp 5 0 = 5 :=
  ⟨((AlignUp_least_multiple 5 4 (by norm_num)).1 2 (by norm_num) (by norm_num)).1,
   (AlignUp_least_multiple 5 4 (by norm_num)).2⟩

/-- C10: `memory_patch(vaddr, value)` modifies only the bytes in
`[vaddr, vaddr + 8)` — every byte outside that range is unchanged — and
performs no protection change: the protection map is left untouched. -/
theorem memory_patch_frame (st : PatchState) (vaddr value : Nat) :
    (∀ a, a < vaddr ∨ vaddr + 8 ≤ a →
      (memory_patch st vaddr value).state.mem a = st.mem a) ∧
    (memory_patch st vaddr value).state.prot = st.prot := by
  refine ⟨?_, rfl⟩
  intro a ha
  show write64 st.mem vaddr value a = st.mem a
  simp only [write64]
  rw [if_neg (by omega)]

/-- C10, witness: patching at address `16` leaves byte `3` and the
protection map unchanged. -/
theorem memory_patch_frame_witness :
    (memory_patch ⟨fun _ => 0, fun _ => MemoryMode.NoAccess⟩ 16 5).state.mem 3 =
      (⟨fun _ => 0, fun _ => MemoryMode.NoAccess⟩ : PatchState).mem 3 ∧
    (memory_patch ⟨fun _ => 0, fun _ => MemoryMode.NoAccess⟩ 16 5).state.prot =
      (⟨fun _ => 0, fun _ => MemoryMode.NoAccess⟩ : PatchState).prot :=
  ⟨(memory_patch_frame ⟨fun _ => 0, fun _ => MemoryMode.NoAccess⟩ 16 5).1 3
      (Or.inl (by norm_num)),
   (memory_patch_frame ⟨fun _ => 0, fun _ => MemoryMode.NoAccess⟩ 16 5).2⟩

end VirtualMemory
